import Mathlib

/-!
Shallow embedding of `src/ColourSorter.ino` (rbotchek/ColourSorter).

Conventions of the embedding:
* C `int` values (servo angles, slot positions, loop counters) are modelled as `ℤ`
  (loop trip counts as `ℕ`: a C `for (i = 0; i < count; i++)` with a negative
  `count` runs zero iterations, and every call site uses a non-negative count).
* C `float` channel values are modelled as `ℚ` with exact arithmetic.
* `colorProfileDistance` in the source returns
  `sqrt(sq(r-pr) + sq(g-pg) + sq(b-pb))`.  We embed the squared distance
  `colorProfileDistanceSq` (the radicand).  Since `sqrt` is strictly monotone on
  non-negative arguments and `sqrt x = 0 ↔ x = 0`, both comparisons performed by
  `bestColorProfile` (`distance < bestDistance` and `bestDistance == NULL`,
  i.e. `bestDistance == 0.0`) and all distance-minimality/equality statements
  are unchanged by this substitution.
* `bestColorProfile` returns a pointer into the `colors` table; we model the
  result as the index of that entry.  The C local `bestProfile` starts
  uninitialized, modelled as `Option ℕ` starting at `none`; the C local
  `float bestDistance = NULL` initializes `bestDistance` to `0.0`, and the
  test `bestDistance == NULL` compares it against `0.0` — both are modelled
  literally.
* Servo motion is modelled by its command trace: the list of angles written to
  the servo, in order (`delay` waits do not affect the trace).
-/

namespace ColourSorter

/-- Selector mechanism constants, from the `#define` block of the source. -/
def SELECTOR_LIMIT : ℤ := 180

def SELECTOR_POSITIONS : ℤ := 3

/-- `SELECTOR_SPACING = SELECTOR_LIMIT / (SELECTOR_POSITIONS - 1)` (C integer division). -/
def SELECTOR_SPACING : ℤ := SELECTOR_LIMIT / (SELECTOR_POSITIONS - 1)

def SELECTOR_POS_HOPPER : ℤ := SELECTOR_SPACING * 0

def SELECTOR_POS_SENSOR : ℤ := SELECTOR_SPACING * 1

def SELECTOR_POS_SORTER : ℤ := SELECTOR_SPACING * 2

def SELECTOR_JOSTLE_DEGREES : ℤ := 10

def SELECTOR_JOSTLE_COUNT : ℕ := 10

/-- Sorter mechanism constants, from the `#define` block of the source. -/
def SORTER_LIMIT : ℤ := 180

def SORTER_POSITIONS : ℤ := 6

/-- `SORTER_SPACING = SORTER_LIMIT / (SORTER_POSITIONS - 1)` (C integer division). -/
def SORTER_SPACING : ℤ := SORTER_LIMIT / (SORTER_POSITIONS - 1)

def SORTER_POS_YELLOW : ℤ := SORTER_SPACING * 0

def SORTER_POS_ORANGE : ℤ := SORTER_SPACING * 1

def SORTER_POS_RED : ℤ := SORTER_SPACING * 2

def SORTER_POS_GREEN : ℤ := SORTER_SPACING * 3

def SORTER_POS_PURPLE : ℤ := SORTER_SPACING * 4

def SORTER_POS_BLUE : ℤ := SORTER_SPACING * 5

def SORTER_JOSTLE_DEGREES : ℤ := 4

def SORTER_JOSTLE_COUNT : ℕ := 10

/-- The `COLOR_PROFILE` struct of the source. -/
structure COLOR_PROFILE where
  red : ℚ
  green : ℚ
  blue : ℚ
  sorterPos : ℤ
  name : String
deriving DecidableEq, Repr

/-- Entry 0 of the `colors[]` table: `{ 89.2, 102.3, 47.6, SORTER_POS_YELLOW, "Yellow M&M" }`. -/
def yellowMM : COLOR_PROFILE := ⟨892/10, 1023/10, 476/10, SORTER_POS_YELLOW, "Yellow M&M"⟩

/-- Entry 1: `{ 88.1, 106.7, 40.7, SORTER_POS_YELLOW, "Yellow Skittle" }`. -/
def yellowSkittle : COLOR_PROFILE := ⟨881/10, 1067/10, 407/10, SORTER_POS_YELLOW, "Yellow Skittle"⟩

/-- Entry 2: `{ 116.6, 69.8, 56.0, SORTER_POS_ORANGE, "Orange M&M" }`. -/
def orangeMM : COLOR_PROFILE := ⟨1166/10, 698/10, 560/10, SORTER_POS_ORANGE, "Orange M&M"⟩

/-- Entry 3: `{ 125.0, 69.4, 45.9, SORTER_POS_ORANGE, "Orange Skittle" }`. -/
def orangeSkittle : COLOR_PROFILE := ⟨1250/10, 694/10, 459/10, SORTER_POS_ORANGE, "Orange Skittle"⟩

/-- Entry 4: `{ 89.4, 83.2, 72.6, SORTER_POS_RED, "Red M&M" }`. -/
def redMM : COLOR_PROFILE := ⟨894/10, 832/10, 726/10, SORTER_POS_RED, "Red M&M"⟩

/-- Entry 5: `{ 92.8, 83.7, 68.3, SORTER_POS_RED, "Red Skittle" }`. -/
def redSkittle : COLOR_PROFILE := ⟨928/10, 837/10, 683/10, SORTER_POS_RED, "Red Skittle"⟩

/-- Entry 6: `{ 57.2, 118.0, 64.9, SORTER_POS_GREEN, "Green M&M" }`. -/
def greenMM : COLOR_PROFILE := ⟨572/10, 1180/10, 649/10, SORTER_POS_GREEN, "Green M&M"⟩

/-- Entry 7: `{ 57.3, 125.9, 54.2, SORTER_POS_GREEN, "Green Skittle" }`. -/
def greenSkittle : COLOR_PROFILE := ⟨573/10, 1259/10, 542/10, SORTER_POS_GREEN, "Green Skittle"⟩

/-- Entry 8: `{ 68.5, 92.2, 78.9, SORTER_POS_PURPLE, "Brown M&M" }`. -/
def brownMM : COLOR_PROFILE := ⟨685/10, 922/10, 789/10, SORTER_POS_PURPLE, "Brown M&M"⟩

/-- Entry 9: `{ 67.0, 92.6, 80.4, SORTER_POS_PURPLE, "Purple Skittle" }`. -/
def purpleSkittle : COLOR_PROFILE := ⟨670/10, 926/10, 804/10, SORTER_POS_PURPLE, "Purple Skittle"⟩

/-- Entry 10: `{ 39.7, 90.1, 112.5, SORTER_POS_BLUE, "Blue M&M" }`. -/
def blueMM : COLOR_PROFILE := ⟨397/10, 901/10, 1125/10, SORTER_POS_BLUE, "Blue M&M"⟩

/-- The `colors[]` table of the source, in source order. -/
def colors : List COLOR_PROFILE :=
  [yellowMM, yellowSkittle, orangeMM, orangeSkittle, redMM, redSkittle,
   greenMM, greenSkittle, brownMM, purpleSkittle, blueMM]

/-- The table entry at index `i` (`&colors[i]`); the default is irrelevant since
every access is at an index `< colors.length`. -/
def profile (i : ℕ) : COLOR_PROFILE := colors.getD i yellowMM

/-- Radicand of `colorProfileDistance`:
`sq(red - p->red) + sq(green - p->green) + sq(blue - p->blue)` where `sq x = x*x`.
The source takes `sqrt` of this value; all comparisons done on the result are
invariant under the strictly monotone, zero-preserving `sqrt`, so the embedding
works with the squared distance throughout. -/
def colorProfileDistanceSq (p : COLOR_PROFILE) (red green blue : ℚ) : ℚ :=
  (red - p.red) * (red - p.red) + (green - p.green) * (green - p.green) +
    (blue - p.blue) * (blue - p.blue)

/-- The scan loop of `bestColorProfile`.  The accumulator is the pair
`(bestDistance, bestProfile)`: `bestDistance` starts at `NULL` = `0.0`, and
`bestProfile` starts uninitialized (`none`).  The branch condition is the
source's `bestDistance == NULL || distance < bestDistance`, with
`NULL` = `0.0` (squared distances compare exactly like the source's
`sqrt` distances). -/
def bestAux (r g b : ℚ) : List ℕ → ℚ × Option ℕ → ℚ × Option ℕ
  | [], acc => acc
  | i :: rest, acc =>
      bestAux r g b rest
        (if acc.1 = 0 ∨ colorProfileDistanceSq (profile i) r g b < acc.1 then
          (colorProfileDistanceSq (profile i) r g b, some i)
        else acc)

/-- `bestColorProfile(red, green, blue)`: scans `colors[0..COLORS-1]` and returns
the recorded best entry (as its index into the table; `none` models returning
the uninitialized `bestProfile` pointer, which never happens for a non-empty
table). -/
def bestColorProfile (r g b : ℚ) : Option ℕ :=
  (bestAux r g b (List.range colors.length) (0, none)).2

/-- Command trace of the jostle `for` loop: `count` iterations, each commanding
`hi` then `lo`. -/
def jostleLoop (hi lo : ℤ) : ℕ → List ℤ
  | 0 => []
  | n + 1 => hi :: lo :: jostleLoop hi lo n

/-- Command trace of `jostleSorter(pos, jostle, count, delayMs)`:
`centerPos = (pos < SORTER_LIMIT) ? pos : pos - jostle`, then `count` cycles of
`moveSorter(centerPos + jostle)` / `moveSorter(centerPos - jostle)`, then a
final `moveSorter(pos)`. -/
def jostleSorterTrace (pos jostle : ℤ) (count : ℕ) : List ℤ :=
  let centerPos := if pos < SORTER_LIMIT then pos else pos - jostle
  jostleLoop (centerPos + jostle) (centerPos - jostle) count ++ [pos]

/-- Command trace of `jostleSelector(pos, jostle, count, delayMs)`.  Note the
source: `centerPos` is computed but NOT used by the loop body, which commands
`moveSelector(pos + jostle)` then `moveSelector(pos)`, and there is no final
move after the loop. -/
def jostleSelectorTrace (pos jostle : ℤ) (count : ℕ) : List ℤ :=
  let _centerPos := if pos < SELECTOR_LIMIT then pos else pos - jostle
  jostleLoop (pos + jostle) pos count

/-- Observable events of one `loop()` iteration. -/
inductive EVENT where
  | selectorMove (angle : ℤ)
  | sorterMove (angle : ℤ)
  | led (isOn : Bool)
  | sensorRead
  | logReading (r g b : ℚ) (label : String)
deriving DecidableEq, Repr

/-- Events of `enableSensorLed(on, delayMs)`: one LED write. -/
def enableSensorLedEvents (isOn : Bool) : List EVENT := [EVENT.led isOn]

/-- Events of `readColor`: LED on, sensor integration and read, LED off. -/
def readColorEvents : List EVENT :=
  enableSensorLedEvents true ++ [EVENT.sensorRead] ++ enableSensorLedEvents false

/-- Events of `moveSelector(pos, delayMs)`. -/
def moveSelectorEvents (pos : ℤ) : List EVENT := [EVENT.selectorMove pos]

/-- Events of `moveSorter(pos, delayMs)`. -/
def moveSorterEvents (pos : ℤ) : List EVENT := [EVENT.sorterMove pos]

/-- Events of `jostleSelector(pos)` with its default arguments, as called by `loop()`. -/
def jostleSelectorEvents (pos : ℤ) : List EVENT :=
  (jostleSelectorTrace pos SELECTOR_JOSTLE_DEGREES SELECTOR_JOSTLE_COUNT).map EVENT.selectorMove

/-- Events of `jostleSorter(pos)` with its default arguments, as called by `loop()`. -/
def jostleSorterEvents (pos : ℤ) : List EVENT :=
  (jostleSorterTrace pos SORTER_JOSTLE_DEGREES SORTER_JOSTLE_COUNT).map EVENT.sorterMove

/-- Events of `logColor(red, green, blue, colorProfile)`: one log line carrying
the raw reading and the matched profile's name. -/
def logColorEvents (r g b : ℚ) (p : COLOR_PROFILE) : List EVENT :=
  [EVENT.logReading r g b p.name]

/-- Event trace of one iteration of `loop()` given the reading produced by
`readColor`.  `none` models dereferencing the uninitialized `bestProfile`
pointer (never happens; see the totality theorem).  The source calls, in
order: `moveSelector(SELECTOR_POS_HOPPER)`, `jostleSelector(SELECTOR_POS_HOPPER)`,
`moveSelector(SELECTOR_POS_SENSOR)`, `readColor(...)`, `bestColorProfile(...)`,
`logColor(...)`, `moveSorter(colorProfile->sorterPos)`,
`moveSelector(SELECTOR_POS_SORTER)`, `jostleSorter(colorProfile->sorterPos)`. -/
def loopEvents (r g b : ℚ) : Option (List EVENT) :=
  match bestColorProfile r g b with
  | none => none
  | some i =>
      some (moveSelectorEvents SELECTOR_POS_HOPPER ++
        jostleSelectorEvents SELECTOR_POS_HOPPER ++
        moveSelectorEvents SELECTOR_POS_SENSOR ++
        readColorEvents ++
        logColorEvents r g b (profile i) ++
        moveSorterEvents (profile i).sorterPos ++
        moveSelectorEvents SELECTOR_POS_SORTER ++
        jostleSorterEvents (profile i).sorterPos)

/-- Spacing formula `angle(slot) = SORTER_SPACING * slot`, matching the
positional macros `SORTER_POS_x = SORTER_SPACING * k`. -/
def sorterAngle (i : ℤ) : ℤ := SORTER_SPACING * i

/-- Spacing formula `angle(slot) = SELECTOR_SPACING * slot`, matching the
positional macros `SELECTOR_POS_x = SELECTOR_SPACING * k`. -/
def selectorAngle (i : ℤ) : ℤ := SELECTOR_SPACING * i

lemma colorProfileDistanceSq_nonneg (p : COLOR_PROFILE) (r g b : ℚ) :
    0 ≤ colorProfileDistanceSq p r g b :=
  add_nonneg (add_nonneg (mul_self_nonneg _) (mul_self_nonneg _)) (mul_self_nonneg _)

lemma colorProfileDistanceSq_eq_zero {p : COLOR_PROFILE} {r g b : ℚ}
    (h : colorProfileDistanceSq p r g b = 0) :
    r = p.red ∧ g = p.green ∧ b = p.blue := by
  unfold colorProfileDistanceSq at h
  have h1 : (r - p.red) * (r - p.red) = 0 := by
    nlinarith [mul_self_nonneg (r - p.red), mul_self_nonneg (g - p.green),
      mul_self_nonneg (b - p.blue)]
  have h2 : (g - p.green) * (g - p.green) = 0 := by
    nlinarith [mul_self_nonneg (r - p.red), mul_self_nonneg (g - p.green),
      mul_self_nonneg (b - p.blue)]
  have h3 : (b - p.blue) * (b - p.blue) = 0 := by
    nlinarith [mul_self_nonneg (r - p.red), mul_self_nonneg (g - p.green),
      mul_self_nonneg (b - p.blue)]
  exact ⟨sub_eq_zero.mp (mul_self_eq_zero.mp h1), sub_eq_zero.mp (mul_self_eq_zero.mp h2),
    sub_eq_zero.mp (mul_self_eq_zero.mp h3)⟩

/-- The scan always keeps a recorded entry once one exists, and the recorded
entry comes from the scanned indices. -/
lemma bestAux_some (r g b : ℚ) :
    ∀ (l : List ℕ) (d : ℚ) (i : ℕ),
      ∃ m, (bestAux r g b l (d, some i)).2 = some m ∧ (m = i ∨ m ∈ l) := by
  intro l
  induction l with
  | nil => intro d i; exact ⟨i, rfl, Or.inl rfl⟩
  | cons a rest ih =>
      intro d i
      have hstep : bestAux r g b (a :: rest) (d, some i) =
          bestAux r g b rest
            (if d = 0 ∨ colorProfileDistanceSq (profile a) r g b < d then
              (colorProfileDistanceSq (profile a) r g b, some a)
            else (d, some i)) := rfl
      by_cases hc : d = 0 ∨ colorProfileDistanceSq (profile a) r g b < d
      · obtain ⟨m, hm, hmem⟩ := ih (colorProfileDistanceSq (profile a) r g b) a
        refine ⟨m, ?_, ?_⟩
        · rw [hstep, if_pos hc]; exact hm
        · rcases hmem with h | h
          · exact Or.inr (h ▸ List.mem_cons_self a rest)
          · exact Or.inr (List.mem_cons_of_mem a h)
      · obtain ⟨m, hm, hmem⟩ := ih d i
        refine ⟨m, ?_, ?_⟩
        · rw [hstep, if_neg hc]; exact hm
        · rcases hmem with h | h
          · exact Or.inl h
          · exact Or.inr (List.mem_cons_of_mem a h)

/-- Characterization of the scan when every remaining squared distance is
positive and the accumulator already records an entry with positive squared
distance: the final record is the least-index minimizer among the recorded
entry and the scanned indices.  Hypotheses mirror the actual call: scanned
indices are strictly increasing and all exceed the recorded index. -/
lemma bestAux_spec (r g b : ℚ) :
    ∀ (l : List ℕ) (d : ℚ) (i : ℕ),
      0 < d → d = colorProfileDistanceSq (profile i) r g b →
      (∀ k ∈ l, 0 < colorProfileDistanceSq (profile k) r g b) →
      (∀ k ∈ l, i < k) →
      List.Pairwise (fun a b => a < b) l →
      ∃ m, bestAux r g b l (d, some i) =
          (colorProfileDistanceSq (profile m) r g b, some m) ∧
        (m = i ∨ m ∈ l) ∧
        colorProfileDistanceSq (profile m) r g b ≤ d ∧
        (∀ k ∈ l, colorProfileDistanceSq (profile m) r g b ≤
          colorProfileDistanceSq (profile k) r g b) ∧
        (i < m → colorProfileDistanceSq (profile m) r g b < d) ∧
        (∀ k ∈ l, k < m → colorProfileDistanceSq (profile m) r g b <
          colorProfileDistanceSq (profile k) r g b) := by
  intro l
  induction l with
  | nil =>
      intro d i hd hdi _ _ _
      refine ⟨i, ?_, Or.inl rfl, le_of_eq hdi.symm, ?_, ?_, ?_⟩
      · simp [bestAux, hdi]
      · intro k hk; exact absurd hk (List.not_mem_nil k)
      · intro h; exact absurd h (lt_irrefl i)
      · intro k hk; exact absurd hk (List.not_mem_nil k)
  | cons a rest ih =>
      intro d i hd hdi hpos hgt hpair
      obtain ⟨hpa, hptail⟩ := List.pairwise_cons.mp hpair
      have hda : 0 < colorProfileDistanceSq (profile a) r g b :=
        hpos a (List.mem_cons_self a rest)
      have hstep : bestAux r g b (a :: rest) (d, some i) =
          bestAux r g b rest
            (if d = 0 ∨ colorProfileDistanceSq (profile a) r g b < d then
              (colorProfileDistanceSq (profile a) r g b, some a)
            else (d, some i)) := rfl
      by_cases hlt : colorProfileDistanceSq (profile a) r g b < d
      · rw [hstep, if_pos (Or.inr hlt)]
        obtain ⟨m, hm, hmem, hle, hminl, hstrict, hstrictl⟩ :=
          ih (colorProfileDistanceSq (profile a) r g b) a hda rfl
            (fun k hk => hpos k (List.mem_cons_of_mem a hk))
            (fun k hk => hpa k hk) hptail
        refine ⟨m, hm, ?_, le_trans hle (le_of_lt hlt), ?_, ?_, ?_⟩
        · rcases hmem with h | h
          · exact Or.inr (h ▸ List.mem_cons_self a rest)
          · exact Or.inr (List.mem_cons_of_mem a h)
        · intro k hk
          rcases List.mem_cons.mp hk with h | h
          · exact h ▸ hle
          · exact hminl k h
        · intro _; exact lt_of_le_of_lt hle hlt
        · intro k hk hkm
          rcases List.mem_cons.mp hk with h | h
          · subst h; exact hstrict hkm
          · exact hstrictl k h hkm
      · rw [hstep, if_neg (not_or.mpr ⟨hd.ne', hlt⟩)]
        obtain ⟨m, hm, hmem, hle, hminl, hstrict, hstrictl⟩ :=
          ih d i hd hdi (fun k hk => hpos k (List.mem_cons_of_mem a hk))
            (fun k hk => hgt k (List.mem_cons_of_mem a hk)) hptail
        refine ⟨m, hm, ?_, hle, ?_, hstrict, ?_⟩
        · rcases hmem with h | h
          · exact Or.inl h
          · exact Or.inr (List.mem_cons_of_mem a h)
        · intro k hk
          rcases List.mem_cons.mp hk with h | h
          · exact h ▸ le_trans hle (not_lt.mp hlt)
          · exact hminl k h
        · intro k hk hkm
          rcases List.mem_cons.mp hk with h | h
          · subst h
            rcases hmem with hmi | hmr
            · exact absurd (hmi ▸ hkm)
                (not_lt.mpr (hgt k (List.mem_cons_self k rest)).le)
            · exact lt_of_lt_of_le
                (hstrict (hgt m (List.mem_cons_of_mem k hmr))) (not_lt.mp hlt)
          · exact hstrictl k h hkm

/-- First step of the scan: since `bestDistance` is initialized to `NULL` =
`0.0`, the sentinel test is true on iteration 0 and `colors[0]` is recorded. -/
lemma bestColorProfile_step (r g b : ℚ) :
    bestAux r g b (List.range colors.length) (0, none) =
      bestAux r g b [1, 2, 3, 4, 5, 6, 7, 8, 9, 10]
        (colorProfileDistanceSq (profile 0) r g b, some 0) := by
  have hrange : List.range colors.length = 0 :: [1, 2, 3, 4, 5, 6, 7, 8, 9, 10] := rfl
  rw [hrange]
  show bestAux r g b [1, 2, 3, 4, 5, 6, 7, 8, 9, 10]
      (if (0 : ℚ) = 0 ∨ colorProfileDistanceSq (profile 0) r g b < 0 then
        (colorProfileDistanceSq (profile 0) r g b, some 0)
      else (0, none)) = _
  rw [if_pos (Or.inl rfl)]

lemma tail_mem_lt_length : ∀ k ∈ [1, 2, 3, 4, 5, 6, 7, 8, 9, 10], k < colors.length := by
  decide

lemma length_split : ∀ k, k < colors.length → k = 0 ∨ k ∈ [1, 2, 3, 4, 5, 6, 7, 8, 9, 10] := by
  intro k hk
  have hk11 : k < 11 := hk
  simp only [List.mem_cons, List.not_mem_nil, or_false]
  omega

/-- `bestColorProfile` always returns an index into the table. -/
lemma bestColorProfile_total (r g b : ℚ) :
    ∃ m, bestColorProfile r g b = some m ∧ m < colors.length := by
  obtain ⟨m, hm, hmem⟩ :=
    bestAux_some r g b [1, 2, 3, 4, 5, 6, 7, 8, 9, 10]
      (colorProfileDistanceSq (profile 0) r g b) 0
  refine ⟨m, ?_, ?_⟩
  · unfold bestColorProfile
    rw [bestColorProfile_step]
    exact hm
  · rcases hmem with h | h
    · rw [h]; decide
    · exact tail_mem_lt_length m h

/-- When no squared distance vanishes, `bestColorProfile` returns the least
index achieving the minimal distance over the whole table. -/
lemma bestColorProfile_char (r g b : ℚ)
    (h : ∀ k, k < colors.length → 0 < colorProfileDistanceSq (profile k) r g b) :
    ∃ m, bestColorProfile r g b = some m ∧ m < colors.length ∧
      (∀ k, k < colors.length →
        colorProfileDistanceSq (profile m) r g b ≤ colorProfileDistanceSq (profile k) r g b) ∧
      (∀ k, k < colors.length → k < m →
        colorProfileDistanceSq (profile m) r g b < colorProfileDistanceSq (profile k) r g b) := by
  have h0 : 0 < colorProfileDistanceSq (profile 0) r g b := h 0 (by decide)
  obtain ⟨m, hm, hmem, hle, hminl, hstrict, hstrictl⟩ :=
    bestAux_spec r g b [1, 2, 3, 4, 5, 6, 7, 8, 9, 10]
      (colorProfileDistanceSq (profile 0) r g b) 0 h0 rfl
      (fun k hk => h k (tail_mem_lt_length k hk))
      (by decide) (by decide)
  refine ⟨m, ?_, ?_, ?_, ?_⟩
  · unfold bestColorProfile
    rw [bestColorProfile_step, hm]
  · rcases hmem with h' | h'
    · rw [h']; decide
    · exact tail_mem_lt_length m h'
  · intro k hk
    rcases length_split k hk with h' | h'
    · exact h' ▸ hle
    · exact hminl k h'
  · intro k hk hkm
    rcases length_split k hk with h' | h'
    · subst h'; exact hstrict hkm
    · exact hstrictl k h' hkm

/-- Every angle commanded by the jostle loop is one of its two oscillation angles. -/
lemma mem_jostleLoop {hi lo x : ℤ} : ∀ {n : ℕ}, x ∈ jostleLoop hi lo n → x = hi ∨ x = lo := by
  intro n
  induction n with
  | zero => intro h; simp [jostleLoop] at h
  | succ n ih =>
      intro h
      simp only [jostleLoop, List.mem_cons] at h
      rcases h with h | h | h
      · exact Or.inl h
      · exact Or.inr h
      · exact ih h

/-- The jostle loop trace in closed form: `n` repetitions of the pair `[hi, lo]`. -/
lemma jostleLoop_flatten (hi lo : ℤ) : ∀ n : ℕ,
    jostleLoop hi lo n = (List.replicate n [hi, lo]).flatten := by
  intro n
  induction n with
  | zero => rfl
  | succ n ih => simp [jostleLoop, List.replicate_succ, ih]

/-- A non-degenerate jostle loop ends with a command to `lo`. -/
lemma jostleLoop_ends (hi lo : ℤ) : ∀ n : ℕ, ∃ t, jostleLoop hi lo (n + 1) = t ++ [lo] := by
  intro n
  induction n with
  | zero => exact ⟨[hi], rfl⟩
  | succ n ih =>
      obtain ⟨t, ht⟩ := ih
      refine ⟨hi :: lo :: t, ?_⟩
      show hi :: lo :: jostleLoop hi lo (n + 1) = (hi :: lo :: t) ++ [lo]
      rw [ht]
      rfl

example : SORTER_SPACING = 36 := by decide

example : SELECTOR_SPACING = 90 := by decide

example : colors.length = 11 := by decide

example : bestColorProfile (892/10) (1023/10) (476/10) = some 1 := by
  norm_num [bestColorProfile, bestAux, profile, colors, colorProfileDistanceSq,
    yellowMM, yellowSkittle, orangeMM, orangeSkittle, redMM, redSkittle,
    greenMM, greenSkittle, brownMM, purpleSkittle, blueMM, List.range_succ]

example : bestColorProfile (397/10) (901/10) (1125/10) = some 10 := by
  norm_num [bestColorProfile, bestAux, profile, colors, colorProfileDistanceSq,
    yellowMM, yellowSkittle, orangeMM, orangeSkittle, redMM, redSkittle,
    greenMM, greenSkittle, brownMM, purpleSkittle, blueMM, List.range_succ]

example : jostleSorterTrace 0 4 2 = [4, -4, 4, -4, 0] := by decide

example : jostleSelectorTrace 180 10 1 = [190, 180] := by decide

/-- The 11 reference points of the table are pairwise distinct already in
their red channel, so no reading can be at distance 0 from two different
profiles. -/
lemma reds_distinct : ∀ i, i < colors.length → ∀ j, j < colors.length → i ≠ j →
    (profile i).red ≠ (profile j).red := by
  have hpw : List.Pairwise (fun p q : COLOR_PROFILE => p.red ≠ q.red) colors := by
    norm_num [colors, List.pairwise_cons, yellowMM, yellowSkittle, orangeMM, orangeSkittle,
      redMM, redSkittle, greenMM, greenSkittle, brownMM, purpleSkittle, blueMM]
  have hpg := List.pairwise_iff_getElem.mp hpw
  intro i hi j hj hij
  have hpi : profile i = colors[i] := List.getD_eq_getElem colors yellowMM hi
  have hpj : profile j = colors[j] := List.getD_eq_getElem colors yellowMM hj
  rw [hpi, hpj]
  rcases Nat.lt_or_ge i j with h | h
  · exact hpg i j hi hj h
  · exact (hpg j i hj hi (lt_of_le_of_ne h (Ne.symm hij))).symm

/-- C1: the claim fails on the code (code bug).  The reading
`(89.2, 102.3, 47.6)` equals the reference color of `colors[0]`
("Yellow M&M") exactly, yet `bestColorProfile` returns entry 1
("Yellow Skittle"): iteration 0 records entry 0 with `bestDistance = 0`, and on
iteration 1 the sentinel test `bestDistance == NULL` (i.e. `== 0.0`) is true
again, so the exact match is overwritten.  The header comment of the source
("Colors are selected based on 3-dimensional distance to measured color
coordinates") and the spec agree that the nearest profile was intended. -/
theorem C1_exact_match_eval :
    colorProfileDistanceSq (profile 0) (892/10) (1023/10) (476/10) = 0 ∧
    (profile 0).name = "Yellow M&M" ∧
    bestColorProfile (892/10) (1023/10) (476/10) = some 1 ∧
    bestColorProfile (892/10) (1023/10) (476/10) ≠ some 0 ∧
    (profile 1).name = "Yellow Skittle" := by
  have heval : bestColorProfile (892/10) (1023/10) (476/10) = some 1 := by
    norm_num [bestColorProfile, bestAux, profile, colors, colorProfileDistanceSq,
      yellowMM, yellowSkittle, orangeMM, orangeSkittle, redMM, redSkittle,
      greenMM, greenSkittle, brownMM, purpleSkittle, blueMM, List.range_succ]
  refine ⟨?_, rfl, heval, ?_, rfl⟩
  · norm_num [profile, colors, yellowMM, colorProfileDistanceSq]
  · rw [heval]; simp

/-- C2 counterexample: for the reading `(89.2, 102.3, 47.6)` the returned
profile (entry 1) is not at minimal Euclidean distance: entry 0 of the table is
strictly closer (distance 0). -/
theorem C2_counterexample :
    bestColorProfile (892/10) (1023/10) (476/10) = some 1 ∧
    (0 : ℕ) < colors.length ∧
    colorProfileDistanceSq (profile 0) (892/10) (1023/10) (476/10) <
      colorProfileDistanceSq (profile 1) (892/10) (1023/10) (476/10) := by
  refine ⟨?_, by decide, ?_⟩
  · norm_num [bestColorProfile, bestAux, profile, colors, colorProfileDistanceSq,
      yellowMM, yellowSkittle, orangeMM, orangeSkittle, redMM, redSkittle,
      greenMM, greenSkittle, brownMM, purpleSkittle, blueMM, List.range_succ]
  · norm_num [profile, colors, yellowMM, yellowSkittle, colorProfileDistanceSq]

/-- C2 (amended): for every reading that does not coincide exactly with the
reference color of any profile (equivalently, whose squared distance to every
profile is nonzero), `bestColorProfile` returns a profile of the table whose
Euclidean distance to the reading is minimal over all profiles.  (The `sqrt`
applied by the source is strictly monotone on non-negative values, so
minimality of the squared distance is minimality of the Euclidean distance.) -/
theorem C2_nearest (r g b : ℚ)
    (h : ∀ k, k < colors.length → colorProfileDistanceSq (profile k) r g b ≠ 0) :
    ∃ m, bestColorProfile r g b = some m ∧ m < colors.length ∧
      ∀ k, k < colors.length →
        colorProfileDistanceSq (profile m) r g b ≤
          colorProfileDistanceSq (profile k) r g b := by
  have hpos : ∀ k, k < colors.length → 0 < colorProfileDistanceSq (profile k) r g b :=
    fun k hk => lt_of_le_of_ne (colorProfileDistanceSq_nonneg _ r g b) (Ne.symm (h k hk))
  obtain ⟨m, hm, hlen, hmin, _⟩ := bestColorProfile_char r g b hpos
  exact ⟨m, hm, hlen, hmin⟩

theorem C2_nearest_witness :
    (∀ k, k < colors.length → colorProfileDistanceSq (profile k) 0 0 0 ≠ 0) ∧
    (∃ m, bestColorProfile 0 0 0 = some m ∧ m < colors.length ∧
      ∀ k, k < colors.length →
        colorProfileDistanceSq (profile m) 0 0 0 ≤
          colorProfileDistanceSq (profile k) 0 0 0) := by
  have h : ∀ k, k < colors.length → colorProfileDistanceSq (profile k) 0 0 0 ≠ 0 := by
    intro k hk
    have hk11 : k < 11 := hk
    interval_cases k <;>
      norm_num [profile, colors, colorProfileDistanceSq, yellowMM, yellowSkittle,
        orangeMM, orangeSkittle, redMM, redSkittle, greenMM, greenSkittle,
        brownMM, purpleSkittle, blueMM]
  exact ⟨h, C2_nearest 0 0 0 h⟩

/-- C3: tie-break.  If a reading is at equal, minimal distance to two distinct
profiles of the table, then the returned profile is at that minimal distance
and is the earliest such entry in table order.  (The minimal distance is
necessarily nonzero — the reference points are pairwise distinct — so the
sentinel defect of the scan cannot trigger, and the strict `<` comparison
keeps the first minimizer.) -/
theorem C3_tie_break (r g b : ℚ) (i j : ℕ)
    (hi : i < colors.length) (hj : j < colors.length) (hij : i ≠ j)
    (heq : colorProfileDistanceSq (profile i) r g b =
      colorProfileDistanceSq (profile j) r g b)
    (hmin : ∀ k, k < colors.length →
      colorProfileDistanceSq (profile i) r g b ≤
        colorProfileDistanceSq (profile k) r g b) :
    ∃ m, bestColorProfile r g b = some m ∧ m < colors.length ∧
      colorProfileDistanceSq (profile m) r g b =
        colorProfileDistanceSq (profile i) r g b ∧
      ∀ k, k < colors.length →
        colorProfileDistanceSq (profile k) r g b =
          colorProfileDistanceSq (profile i) r g b →
        m ≤ k := by
  have hipos : 0 < colorProfileDistanceSq (profile i) r g b := by
    rcases lt_or_eq_of_le (colorProfileDistanceSq_nonneg (profile i) r g b) with hlt | heq0
    · exact hlt
    · exfalso
      obtain ⟨hr, _, _⟩ := colorProfileDistanceSq_eq_zero heq0.symm
      obtain ⟨hr', _, _⟩ := colorProfileDistanceSq_eq_zero (heq ▸ heq0.symm)
      exact reds_distinct i hi j hj hij (hr.symm.trans hr')
  have hpos : ∀ k, k < colors.length → 0 < colorProfileDistanceSq (profile k) r g b :=
    fun k hk => lt_of_lt_of_le hipos (hmin k hk)
  obtain ⟨m, hm, hlen, hminm, hleast⟩ := bestColorProfile_char r g b hpos
  have hmi : colorProfileDistanceSq (profile m) r g b =
      colorProfileDistanceSq (profile i) r g b :=
    le_antisymm (hminm i hi) (hmin m hlen)
  refine ⟨m, hm, hlen, hmi, ?_⟩
  intro k hk hke
  by_contra hkm
  push_neg at hkm
  have hlt := hleast k hk hkm
  rw [hke, ← hmi] at hlt
  exact lt_irrefl _ hlt

theorem C3_tie_break_witness :
    ∃ m, bestColorProfile (8865/100) (1045/10) (4415/100) = some m ∧
      m < colors.length ∧
      colorProfileDistanceSq (profile m) (8865/100) (1045/10) (4415/100) =
        colorProfileDistanceSq (profile 0) (8865/100) (1045/10) (4415/100) ∧
      ∀ k, k < colors.length →
        colorProfileDistanceSq (profile k) (8865/100) (1045/10) (4415/100) =
          colorProfileDistanceSq (profile 0) (8865/100) (1045/10) (4415/100) →
        m ≤ k :=
  C3_tie_break (8865/100) (1045/10) (4415/100) 0 1 (by decide) (by decide) (by decide)
    (by norm_num [profile, colors, yellowMM, yellowSkittle, colorProfileDistanceSq])
    (by
      intro k hk
      have hk11 : k < 11 := hk
      interval_cases k <;>
        norm_num [profile, colors, colorProfileDistanceSq, yellowMM, yellowSkittle,
          orangeMM, orangeSkittle, redMM, redSkittle, greenMM, greenSkittle,
          brownMM, purpleSkittle, blueMM])

/-- C9: order of one `loop()` iteration.  For every reading, the matched
profile exists, and the iteration's event trace is exactly: selector to the
hopper station, selector jostle there, selector to the sensor station (direct
move), illumination on, sensor read, illumination off, one log line with the
reading and the matched label, sorter to the matched profile's slot angle,
selector to the sorter station, sorter jostle at that slot angle; the next
iteration then starts again at the beginning of this trace (loading). -/
theorem C9_loop_order (r g b : ℚ) :
    ∃ m, bestColorProfile r g b = some m ∧
      loopEvents r g b = some
        ([EVENT.selectorMove SELECTOR_POS_HOPPER] ++
         (jostleSelectorTrace SELECTOR_POS_HOPPER SELECTOR_JOSTLE_DEGREES
           SELECTOR_JOSTLE_COUNT).map EVENT.selectorMove ++
         ([EVENT.selectorMove SELECTOR_POS_SENSOR, EVENT.led true, EVENT.sensorRead,
           EVENT.led false, EVENT.logReading r g b (profile m).name,
           EVENT.sorterMove (profile m).sorterPos,
           EVENT.selectorMove SELECTOR_POS_SORTER] ++
          (jostleSorterTrace (profile m).sorterPos SORTER_JOSTLE_DEGREES
            SORTER_JOSTLE_COUNT).map EVENT.sorterMove)) := by
  obtain ⟨m, hm, _⟩ := bestColorProfile_total r g b
  refine ⟨m, hm, ?_⟩
  unfold loopEvents
  rw [hm]
  simp [moveSelectorEvents, moveSorterEvents, readColorEvents, enableSensorLedEvents,
    jostleSelectorEvents, jostleSorterEvents, logColorEvents, List.append_assoc]

/-- C10: the sentinel test is true on the first loop iteration (`bestDistance`
is initialized to `NULL` = `0.0`), so a best profile is recorded immediately
and `bestColorProfile` never returns an uninitialized value: for every reading
it returns an index into the 11-entry table, and the sorter angle that
`loop()` uses for routing is one of `0, 36, 72, 108, 144, 180`. -/
theorem C10_always_assigned (r g b : ℚ) :
    ∃ m, bestColorProfile r g b = some m ∧ m < colors.length ∧
      (profile m).sorterPos ∈ ([0, 36, 72, 108, 144, 180] : List ℤ) := by
  obtain ⟨m, hm, hlen⟩ := bestColorProfile_total r g b
  have hall : ∀ k, k < colors.length →
      (profile k).sorterPos ∈ ([0, 36, 72, 108, 144, 180] : List ℤ) := by decide
  exact ⟨m, hm, hlen, hall m hlen⟩

/-- C4 counterexample: the claim fails as stated.  The target angle `0` lies in
`[0, SORTER_LIMIT]`, yet `jostleSorter(0)` (default amplitude 4, count 10)
commands the angle `-4` (an oscillation trough below `0`): the center
computation only guards the upper end of the range. -/
theorem C4_counterexample :
    ((0 : ℤ) ≤ 0 ∧ (0 : ℤ) ≤ SORTER_LIMIT) ∧
    (-4 : ℤ) ∈ jostleSorterTrace 0 SORTER_JOSTLE_DEGREES SORTER_JOSTLE_COUNT ∧
    (-4 : ℤ) < 0 := by decide

/-- C4 (amended): commanded jostle angles stay within `[0, full_range]` under
the conditions the code actually ensures. For the sorter jostle: when
`0 ≤ amplitude` and either `amplitude ≤ target` with
`target + amplitude ≤ SORTER_LIMIT`, or `target = SORTER_LIMIT` with
`2·amplitude ≤ SORTER_LIMIT`.  For the selector jostle: when `0 ≤ amplitude`,
`0 ≤ target` and `target + amplitude ≤ SELECTOR_LIMIT` (the selector loop
commands `target + amplitude` and `target`, ignoring the computed center, so
its max-end branch does not prevent an overshoot at `target = SELECTOR_LIMIT`). -/
theorem C4_jostle_range (pos amp : ℤ) (count : ℕ) :
    ((0 ≤ amp ∧ ((amp ≤ pos ∧ pos + amp ≤ SORTER_LIMIT) ∨
        (pos = SORTER_LIMIT ∧ 2 * amp ≤ SORTER_LIMIT))) →
      ∀ x ∈ jostleSorterTrace pos amp count, 0 ≤ x ∧ x ≤ SORTER_LIMIT) ∧
    ((0 ≤ amp ∧ 0 ≤ pos ∧ pos + amp ≤ SELECTOR_LIMIT) →
      ∀ x ∈ jostleSelectorTrace pos amp count, 0 ≤ x ∧ x ≤ SELECTOR_LIMIT) := by
  constructor
  · rintro ⟨hamp, hcase⟩ x hx
    simp only [jostleSorterTrace] at hx
    simp only [SORTER_LIMIT] at hcase hx ⊢
    rcases List.mem_append.mp hx with hx | hx
    · by_cases hp : pos < 180
      · rw [if_pos hp] at hx
        rcases mem_jostleLoop hx with h | h <;> subst h <;> omega
      · rw [if_neg hp] at hx
        rcases mem_jostleLoop hx with h | h <;> subst h <;> omega
    · have hx0 : x = pos := List.mem_singleton.mp hx
      subst hx0
      omega
  · rintro ⟨hamp, hpos0, hsum⟩ x hx
    simp only [jostleSelectorTrace] at hx
    simp only [SELECTOR_LIMIT] at hsum ⊢
    rcases mem_jostleLoop hx with h | h <;> subst h <;> omega

theorem C4_jostle_range_witness :
    (∀ x ∈ jostleSorterTrace 36 4 10, 0 ≤ x ∧ x ≤ SORTER_LIMIT) ∧
    (∀ x ∈ jostleSelectorTrace 36 4 10, 0 ≤ x ∧ x ≤ SELECTOR_LIMIT) :=
  ⟨(C4_jostle_range 36 4 10).1 (by decide), (C4_jostle_range 36 4 10).2 (by decide)⟩

/-- C5 counterexample: the claim fails for the selector jostle with
`cycle_count = 0`: `jostleSelector` has no final move after its loop, so a
zero-cycle call commands no move at all, and in particular no last move to the
target angle. -/
theorem C5_counterexample :
    jostleSelectorTrace 0 SELECTOR_JOSTLE_DEGREES 0 = [] ∧
    (jostleSelectorTrace 0 SELECTOR_JOSTLE_DEGREES 0).getLast? ≠ some 0 := by decide

/-- C5 (amended): the sorter jostle always ends with a move to exactly the
target angle (its final `moveSorter(pos)`), for every amplitude and
cycle count; the selector jostle does so whenever `cycle_count ≥ 1` (the last
command of its loop body is the target), but commands nothing when
`cycle_count = 0`. -/
theorem C5_final_settle (pos amp : ℤ) (count : ℕ) :
    (jostleSorterTrace pos amp count).getLast? = some pos ∧
    (0 < count → (jostleSelectorTrace pos amp count).getLast? = some pos) := by
  constructor
  · simp only [jostleSorterTrace]
    exact List.getLast?_concat _
  · intro hc
    obtain ⟨n, rfl⟩ : ∃ n, count = n + 1 := ⟨count - 1, by omega⟩
    simp only [jostleSelectorTrace]
    obtain ⟨t, ht⟩ := jostleLoop_ends (pos + amp) pos n
    rw [ht]
    exact List.getLast?_concat _

theorem C5_final_settle_witness :
    (jostleSorterTrace 90 10 1).getLast? = some 90 ∧
    (jostleSelectorTrace 90 10 1).getLast? = some 90 :=
  ⟨(C5_final_settle 90 10 1).1, (C5_final_settle 90 10 1).2 (by norm_num)⟩

/-- C6 counterexample: the claim fails for the selector jostle:
`jostleSelector` with `cycle_count = 0` issues zero move commands, not exactly
one. -/
theorem C6_counterexample :
    jostleSelectorTrace 0 SELECTOR_JOSTLE_DEGREES 0 = [] ∧
    (jostleSelectorTrace 0 SELECTOR_JOSTLE_DEGREES 0).length ≠ 1 := by decide

/-- C6 (amended): with `cycle_count = 0` the sorter jostle issues exactly one
move, to the target angle (its unconditional final `moveSorter(pos)`), while
the selector jostle issues no move at all (it has no move outside its loop). -/
theorem C6_zero_cycles (pos amp : ℤ) :
    jostleSorterTrace pos amp 0 = [pos] ∧ jostleSelectorTrace pos amp 0 = [] := by
  constructor <;> simp [jostleSorterTrace, jostleSelectorTrace, jostleLoop]

/-- C7 counterexample: the claim fails for the selector jostle.  At target
`180` (the selector maximum) with amplitude `10` and one cycle, the claim
predicts the command sequence `[center+10, center-10, 180] = [180, 160, 180]`
with `center = 170`; the code instead commands `[190, 180]`: the loop uses
`pos + jostle` and `pos` (ignoring `centerPos`), and there is no final settle
move. -/
theorem C7_counterexample :
    jostleSelectorTrace 180 10 1 = [190, 180] ∧
    (List.replicate 1 [(180 - 10 : ℤ) + 10, (180 - 10 : ℤ) - 10]).flatten ++ [(180 : ℤ)] =
      [180, 160, 180] ∧
    ([190, 180] : List ℤ) ≠ [180, 160, 180] := by decide

/-- C7 (amended): for targets within range, the sorter jostle follows exactly
the claimed sequence: `center = target` unless `target = SORTER_LIMIT`, in
which case `center = target - amplitude`; then `cycle_count` repetitions of
`[center + amplitude, center - amplitude]` followed by one final move to the
target.  The selector jostle instead repeats `[target + amplitude, target]`
(its computed center is unused) and issues no final move. -/
theorem C7_jostle_sequence (pos amp : ℤ) (count : ℕ) (hpos : pos ≤ SORTER_LIMIT) :
    jostleSorterTrace pos amp count =
      (List.replicate count [(if pos = SORTER_LIMIT then pos - amp else pos) + amp,
        (if pos = SORTER_LIMIT then pos - amp else pos) - amp]).flatten ++ [pos] ∧
    jostleSelectorTrace pos amp count =
      (List.replicate count [pos + amp, pos]).flatten := by
  have hcent : (if pos < SORTER_LIMIT then pos else pos - amp) =
      (if pos = SORTER_LIMIT then pos - amp else pos) := by
    by_cases hp : pos = SORTER_LIMIT
    · subst hp
      rw [if_neg (lt_irrefl _), if_pos rfl]
    · rw [if_pos (lt_of_le_of_ne hpos hp), if_neg hp]
  constructor
  · simp only [jostleSorterTrace]
    rw [hcent, jostleLoop_flatten]
  · simp only [jostleSelectorTrace]
    rw [jostleLoop_flatten]

theorem C7_jostle_sequence_witness :
    jostleSorterTrace 180 4 2 =
      (List.replicate 2 [(if (180 : ℤ) = SORTER_LIMIT then 180 - 4 else 180) + 4,
        (if (180 : ℤ) = SORTER_LIMIT then 180 - 4 else 180) - 4]).flatten ++ [(180 : ℤ)] ∧
    jostleSelectorTrace 180 4 2 = (List.replicate 2 [(180 : ℤ) + 4, 180]).flatten :=
  C7_jostle_sequence 180 4 2 (by decide)

/-- C8: `angle(slot) = slot * spacing` with `spacing = full_range / (count - 1)`
(C integer division) is strictly increasing in the slot index for both
mechanisms, with `angle(0) = 0` and `angle(count - 1) = full_range = 180`
exactly: `180 / 5 = 36` and `180 / 2 = 90` are exact under integer division. -/
theorem C8_spacing :
    (∀ i j : ℤ, 0 ≤ i → i < j → j ≤ SORTER_POSITIONS - 1 →
      sorterAngle i < sorterAngle j) ∧
    sorterAngle 0 = 0 ∧ sorterAngle (SORTER_POSITIONS - 1) = SORTER_LIMIT ∧
    (∀ i j : ℤ, 0 ≤ i → i < j → j ≤ SELECTOR_POSITIONS - 1 →
      selectorAngle i < selectorAngle j) ∧
    selectorAngle 0 = 0 ∧ selectorAngle (SELECTOR_POSITIONS - 1) = SELECTOR_LIMIT := by
  have hss : SORTER_SPACING = 36 := by decide
  have hls : SELECTOR_SPACING = 90 := by decide
  refine ⟨?_, by decide, by decide, ?_, by decide, by decide⟩
  · intro i j h0 hij hj
    simp only [sorterAngle, hss]
    omega
  · intro i j h0 hij hj
    simp only [selectorAngle, hls]
    omega

theorem C8_spacing_witness :
    sorterAngle 2 < sorterAngle 3 ∧ selectorAngle 0 < selectorAngle 2 :=
  ⟨C8_spacing.1 2 3 (by decide) (by decide) (by decide),
   C8_spacing.2.2.2.1 0 2 (by decide) (by decide) (by decide)⟩

end ColourSorter
